import Mathlib

/-!
Verification of the Lemon Squeezy webhook handler
(src/pages/api/hooks/ls.ts).

The handler is embedded shallowly:
* `sha256` / `hmacSha256` / `bytesToHex` model `crypto.createHmac("sha256", secret)
  .update(rawBody).digest("hex")` (validated against the standard test vectors);
* `utf8Bytes` models `Buffer.from(s, "utf8")` as a list of byte values;
* `timingSafeEqual` models `crypto.timingSafeEqual`, including the RangeError
  it raises when the two buffers differ in byte length;
* `jsonParse` is an executable JSON parser modelling `JSON.parse` (result values
  in `JsVal`, failures as a SyntaxError-
  shaped `JsErr`);
* `destructurePayload` models the nested destructuring of the parsed payload,
  including the TypeError raised when a destructured parent is undefined/null;
* `runTry` is the body of the `try` block, paired with a Bool recording whether
  control reached `JSON.parse`; `catchClause` is the `catch` block; `handler`
  is the exported request handler.

Machine integers are modelled as `Nat` with explicit `% 2 ^ 32` where SHA-256
words overflow. All definitions are executable, so witnesses evaluate them on
concrete inputs with `decide` / `rfl`.
-/

set_option maxRecDepth 8000000

namespace LS

/-! ### SHA-256, HMAC, hex digests (crypto.createHmac("sha256", _).digest("hex")) -/

def rotr (n x : Nat) : Nat := ((x >>> n) ||| (x <<< (32 - n))) % 4294967296

def bigS0 (x : Nat) : Nat := rotr 2 x ^^^ rotr 13 x ^^^ rotr 22 x

def bigS1 (x : Nat) : Nat := rotr 6 x ^^^ rotr 11 x ^^^ rotr 25 x

def smallS0 (x : Nat) : Nat := rotr 7 x ^^^ rotr 18 x ^^^ (x >>> 3)

def smallS1 (x : Nat) : Nat := rotr 17 x ^^^ rotr 19 x ^^^ (x >>> 10)

def chF (x y z : Nat) : Nat := (x &&& y) ^^^ ((x ^^^ 4294967295) &&& z)

def majF (x y z : Nat) : Nat := (x &&& y) ^^^ (x &&& z) ^^^ (y &&& z)

def sha256K : List Nat :=
  [1116352408, 1899447441, 3049323471, 3921009573,
   961987163, 1508970993, 2453635748, 2870763221,
   3624381080, 310598401, 607225278, 1426881987,
   1925078388, 2162078206, 2614888103, 3248222580,
   3835390401, 4022224774, 264347078, 604807628,
   770255983, 1249150122, 1555081692, 1996064986,
   2554220882, 2821834349, 2952996808, 3210313671,
   3336571891, 3584528711, 113926993, 338241895,
   666307205, 773529912, 1294757372, 1396182291,
   1695183700, 1986661051, 2177026350, 2456956037,
   2730485921, 2820302411, 3259730800, 3345764771,
   3516065817, 3600352804, 4094571909, 275423344,
   430227734, 506948616, 659060556, 883997877,
   958139571, 1322822218, 1537002063, 1747873779,
   1955562222, 2024104815, 2227730452, 2361852424,
   2428436474, 2756734187, 3204031479, 3329325298]

def sha256H0 : List Nat :=
  [1779033703, 3144134277, 1013904242, 2773480762,
   1359893119, 2600822924, 528734635, 1541459225]

def be32 (w : Nat) : List Nat := [w / 2 ^ 24 % 256, w / 2 ^ 16 % 256, w / 2 ^ 8 % 256, w % 256]

def be64 (n : Nat) : List Nat :=
  [n / 2 ^ 56 % 256, n / 2 ^ 48 % 256, n / 2 ^ 40 % 256, n / 2 ^ 32 % 256,
   n / 2 ^ 24 % 256, n / 2 ^ 16 % 256, n / 2 ^ 8 % 256, n % 256]

def shaPad (msg : List Nat) : List Nat :=
  let zeros := (64 - (msg.length + 9) % 64) % 64
  msg ++ [128] ++ List.replicate zeros 0 ++ be64 (8 * msg.length)

def bytesToWords : List Nat → List Nat
  | b0 :: b1 :: b2 :: b3 :: rest =>
      (b0 * 16777216 + b1 * 65536 + b2 * 256 + b3) :: bytesToWords rest
  | _ => []

def chunks64Fuel : Nat → List Nat → List (List Nat)
  | 0, _ => []
  | n + 1, l => if l = [] then [] else l.take 64 :: chunks64Fuel n (l.drop 64)

def chunks64 (l : List Nat) : List (List Nat) := chunks64Fuel l.length l

def extendSchedule (ws : List Nat) : List Nat :=
  (List.range 48).foldl (fun acc _ =>
    let n := acc.length
    acc ++ [(smallS1 (acc.getD (n - 2) 0) + acc.getD (n - 7) 0 +
             smallS0 (acc.getD (n - 15) 0) + acc.getD (n - 16) 0) % 4294967296]) ws

def compressRound (st : List Nat) (kw : Nat × Nat) : List Nat :=
  match st with
  | [a, b, c, d, e, f, g, h] =>
      let t1 := (h + bigS1 e + chF e f g + kw.1 + kw.2) % 4294967296
      let t2 := (bigS0 a + majF a b c) % 4294967296
      [(t1 + t2) % 4294967296, a, b, c, (d + t1) % 4294967296, e, f, g]
  | st => st

def compressBlock (hs : List Nat) (block : List Nat) : List Nat :=
  let ws := extendSchedule (bytesToWords block)
  let st := (sha256K.zip ws).foldl compressRound hs
  (hs.zip st).map (fun p => (p.1 + p.2) % 4294967296)

def sha256 (msg : List Nat) : List Nat :=
  ((chunks64 (shaPad msg)).foldl compressBlock sha256H0).flatMap be32

def hmacSha256 (key msg : List Nat) : List Nat :=
  let k0 := if key.length > 64 then sha256 key else key
  let k := k0 ++ List.replicate (64 - k0.length) 0
  let ipad := k.map (fun b => b ^^^ 0x36)
  let opad := k.map (fun b => b ^^^ 0x5c)
  sha256 (opad ++ sha256 (ipad ++ msg))

/-- Lowercase hex digit, as produced by Node's `digest("hex")`. -/
def hexChar : Nat → Char
  | 0 => '0' | 1 => '1' | 2 => '2' | 3 => '3' | 4 => '4' | 5 => '5' | 6 => '6' | 7 => '7'
  | 8 => '8' | 9 => '9' | 10 => 'a' | 11 => 'b' | 12 => 'c' | 13 => 'd' | 14 => 'e' | 15 => 'f'
  | _ => '0'

def byteHex (b : Nat) : List Char := [hexChar (b / 16), hexChar (b % 16)]

def bytesToHex (bs : List Nat) : String := String.mk (bs.flatMap byteHex)

/-- Uppercase hex digit (not produced by the code; used to state claim C9). -/
def upperHexChar : Nat → Char
  | 0 => '0' | 1 => '1' | 2 => '2' | 3 => '3' | 4 => '4' | 5 => '5' | 6 => '6' | 7 => '7'
  | 8 => '8' | 9 => '9' | 10 => 'A' | 11 => 'B' | 12 => 'C' | 13 => 'D' | 14 => 'E' | 15 => 'F'
  | _ => '0'

def byteHexUpper (b : Nat) : List Char := [upperHexChar (b / 16), upperHexChar (b % 16)]

def bytesToHexUpper (bs : List Nat) : String := String.mk (bs.flatMap byteHexUpper)

/-- `Buffer.from(s, "utf8")` as a byte list: standard UTF-8 encoding of a char. -/
def utf8EncodeChar (c : Char) : List Nat :=
  let n := c.toNat
  if n < 128 then [n]
  else if n < 2048 then [192 + n / 64, 128 + n % 64]
  else if n < 65536 then [224 + n / 4096, 128 + n / 64 % 64, 128 + n % 64]
  else [240 + n / 262144, 128 + n / 4096 % 64, 128 + n / 64 % 64, 128 + n % 64]

def utf8List : List Char → List Nat
  | [] => []
  | c :: cs => utf8EncodeChar c ++ utf8List cs

def utf8Bytes (s : String) : List Nat := utf8List s.data

/-- `crypto.createHmac("sha256", secret).update(rawBody).digest("hex")`:
both the secret and the body contribute their UTF-8 bytes, and the digest is
hex-encoded in lowercase. -/
def hmacSha256Hex (secret msg : String) : String :=
  bytesToHex (hmacSha256 (utf8Bytes secret) (utf8Bytes msg))

/-! ### JavaScript values, JSON.parse, property access -/

/-- A JavaScript value as far as this handler can observe one.  `num` keeps the
source literal: the handler never computes with numbers, so their floating
point interpretation and re-formatting are not modelled. -/
inductive JsVal where
  | undef
  | null
  | bool (b : Bool)
  | num (lit : String)
  | str (s : String)
  | arr (elems : List JsVal)
  | obj (fields : List (String × JsVal))

/-- A JavaScript exception as far as the `catch` block can observe one:
a thrown string, an `Error` instance (name and message), or anything else. -/
inductive JsErr where
  | str (s : String)
  | error (name msg : String)
  | other
deriving DecidableEq

def quoteChar : Char := Char.ofNat 34

def backslashChar : Char := Char.ofNat 92

def lbraceChar : Char := Char.ofNat 123

def rbraceChar : Char := Char.ofNat 125

def isJsonWs (c : Char) : Bool :=
  (c.toNat == 32) || (c.toNat == 9) || (c.toNat == 10) || (c.toNat == 13)

def skipWs : List Char → List Char
  | [] => []
  | c :: cs => if isJsonWs c then skipWs cs else c :: cs

def hexVal (c : Char) : Option Nat :=
  let n := c.toNat
  if 48 ≤ n ∧ n ≤ 57 then some (n - 48)
  else if 97 ≤ n ∧ n ≤ 102 then some (n - 87)
  else if 65 ≤ n ∧ n ≤ 70 then some (n - 55)
  else none

/-- Body of a JSON string literal (the opening quote already consumed):
returns the decoded content and the remainder after the closing quote.
`\uXXXX` yields the char with that code (lone surrogates, which `Char` cannot
represent, are outside the inputs this development evaluates). -/
def parseStringChars : List Char → Option (List Char × List Char)
  | [] => none
  | c :: cs =>
    if c = quoteChar then some ([], cs)
    else if c = backslashChar then
      match cs with
      | [] => none
      | e :: cs2 =>
        if e = quoteChar then (parseStringChars cs2).map (fun p => (quoteChar :: p.1, p.2))
        else if e = backslashChar then
          (parseStringChars cs2).map (fun p => (backslashChar :: p.1, p.2))
        else if e = '/' then (parseStringChars cs2).map (fun p => ('/' :: p.1, p.2))
        else if e = 'b' then (parseStringChars cs2).map (fun p => (Char.ofNat 8 :: p.1, p.2))
        else if e = 'f' then (parseStringChars cs2).map (fun p => (Char.ofNat 12 :: p.1, p.2))
        else if e = 'n' then (parseStringChars cs2).map (fun p => (Char.ofNat 10 :: p.1, p.2))
        else if e = 'r' then (parseStringChars cs2).map (fun p => (Char.ofNat 13 :: p.1, p.2))
        else if e = 't' then (parseStringChars cs2).map (fun p => (Char.ofNat 9 :: p.1, p.2))
        else if e = 'u' then
          match cs2 with
          | h1 :: h2 :: h3 :: h4 :: cs3 =>
            match hexVal h1, hexVal h2, hexVal h3, hexVal h4 with
            | some v1, some v2, some v3, some v4 =>
                (parseStringChars cs3).map
                  (fun p => (Char.ofNat (4096 * v1 + 256 * v2 + 16 * v3 + v4) :: p.1, p.2))
            | _, _, _, _ => none
          | _ => none
        else none
    else if c.toNat < 32 then none
    else (parseStringChars cs).map (fun p => (c :: p.1, p.2))

def matchLiteral : List Char → List Char → Option (List Char)
  | [], cs => some cs
  | l :: ls, c :: cs => if c = l then matchLiteral ls cs else none
  | _ :: _, [] => none

def parseFrac (cs : List Char) : Option (List Char × List Char) :=
  match cs with
  | c :: rest =>
      if c = '.' then
        let p := rest.span Char.isDigit
        if p.1 = [] then none else some (c :: p.1, p.2)
      else some ([], cs)
  | [] => some ([], [])

def parseExp (cs : List Char) : Option (List Char × List Char) :=
  match cs with
  | c :: rest =>
      if c = 'e' ∨ c = 'E' then
        match rest with
        | s :: rest2 =>
            if s = '+' ∨ s = '-' then
              let p := rest2.span Char.isDigit
              if p.1 = [] then none else some (c :: s :: p.1, p.2)
            else
              let p := rest.span Char.isDigit
              if p.1 = [] then none else some (c :: p.1, p.2)
        | [] => none
      else some ([], cs)
  | [] => some ([], [])

def parseNumber (cs : List Char) : Option (JsVal × List Char) :=
  let np :=
    match cs with
    | c :: rest => if c = '-' then ([c], rest) else (([] : List Char), cs)
    | [] => (([] : List Char), ([] : List Char))
  let ip := np.2.span Char.isDigit
  if ip.1 = [] then none
  else if ip.1.length > 1 ∧ ip.1.headD '0' = '0' then none
  else
    match parseFrac ip.2 with
    | none => none
    | some (fp, cs3) =>
      match parseExp cs3 with
      | none => none
      | some (ep, cs4) => some (.num (String.mk (np.1 ++ ip.1 ++ fp ++ ep)), cs4)

mutual

/-- Recursive-descent JSON value parser.  The fuel argument only bounds the
nesting depth; `jsonParse` passes more fuel than any input can consume, so the
zero-fuel branch is unreachable there. -/
def parseValue : Nat → List Char → Option (JsVal × List Char)
  | 0, _ => none
  | f + 1, cs =>
    match skipWs cs with
    | [] => none
    | c :: rest =>
      if c = quoteChar then
        match parseStringChars rest with
        | some (content, rest2) => some (.str (String.mk content), rest2)
        | none => none
      else if c = lbraceChar then
        match skipWs rest with
        | d :: rest2 =>
            if d = rbraceChar then some (.obj [], rest2)
            else
              match parseMembers f (d :: rest2) with
              | some (fields, rest3) =>
                  match skipWs rest3 with
                  | e :: rest4 => if e = rbraceChar then some (.obj fields, rest4) else none
                  | [] => none
              | none => none
        | [] => none
      else if c = '[' then
        match skipWs rest with
        | d :: rest2 =>
            if d = ']' then some (.arr [], rest2)
            else
              match parseElements f (d :: rest2) with
              | some (elems, rest3) =>
                  match skipWs rest3 with
                  | e :: rest4 => if e = ']' then some (.arr elems, rest4) else none
                  | [] => none
              | none => none
        | [] => none
      else if c = 't' then
        match matchLiteral ['r', 'u', 'e'] rest with
        | some rest2 => some (.bool true, rest2)
        | none => none
      else if c = 'f' then
        match matchLiteral ['a', 'l', 's', 'e'] rest with
        | some rest2 => some (.bool false, rest2)
        | none => none
      else if c = 'n' then
        match matchLiteral ['u', 'l', 'l'] rest with
        | some rest2 => some (.null, rest2)
        | none => none
      else if c = '-' ∨ c.isDigit then parseNumber (c :: rest)
      else none

def parseMembers : Nat → List Char → Option (List (String × JsVal) × List Char)
  | 0, _ => none
  | f + 1, cs =>
    match skipWs cs with
    | c :: rest =>
      if c = quoteChar then
        match parseStringChars rest with
        | some (key, rest2) =>
          match skipWs rest2 with
          | d :: rest3 =>
            if d = ':' then
              match parseValue f rest3 with
              | some (v, rest4) =>
                match skipWs rest4 with
                | e :: rest5 =>
                  if e = ',' then
                    match parseMembers f rest5 with
                    | some (fields, rest6) => some ((String.mk key, v) :: fields, rest6)
                    | none => none
                  else some ([(String.mk key, v)], e :: rest5)
                | [] => some ([(String.mk key, v)], [])
              | none => none
            else none
          | [] => none
        | none => none
      else none
    | [] => none

def parseElements : Nat → List Char → Option (List JsVal × List Char)
  | 0, _ => none
  | f + 1, cs =>
    match parseValue f cs with
    | some (v, rest) =>
      match skipWs rest with
      | e :: rest2 =>
        if e = ',' then
          match parseElements f rest2 with
          | some (vs, rest3) => some (v :: vs, rest3)
          | none => none
        else some ([v], e :: rest2)
      | [] => some ([v], [])
    | none => none

end

def jsonSyntaxError : JsErr := JsErr.error "SyntaxError" "Unexpected token in JSON"

/-- `JSON.parse(rawBody)`: either a `JsVal` or a SyntaxError-shaped exception. -/
def jsonParse (s : String) : Except JsErr JsVal :=
  match parseValue (2 * s.data.length + 2) s.data with
  | some (v, rest) => if skipWs rest = [] then Except.ok v else Except.error jsonSyntaxError
  | none => Except.error jsonSyntaxError

/-- Last-occurrence field lookup: `JSON.parse` keeps the last of duplicate keys,
and the parser stores fields in source order. -/
def lookupLast (fields : List (String × JsVal)) (k : String) : Option JsVal :=
  fields.foldl (fun acc p => if p.1 = k then some p.2 else acc) none

/-- Property access `v[k]` on a non-nullish value, for the plain data keys this
handler reads (which exist on no primitive or array prototype): objects yield
the field or undefined, every other non-nullish value yields undefined. -/
def jsGetD : JsVal → String → JsVal
  | .obj fs, k => (lookupLast fs k).getD .undef
  | _, _ => .undef

def nullish : JsVal → Bool
  | .undef => true
  | .null => true
  | _ => false

/-- `GetV(v, k)` as used by destructuring: property access that throws a
TypeError when the base is undefined or null. -/
def getV : JsVal → String → Except JsErr JsVal
  | .undef, k =>
      .error (.error "TypeError" ("Cannot read properties of undefined (reading " ++ k ++ ")"))
  | .null, k =>
      .error (.error "TypeError" ("Cannot read properties of null (reading " ++ k ++ ")"))
  | v, k => .ok (jsGetD v k)

mutual

/-- JavaScript ToString as used by the template literal in the unknown-event
message.  Number re-formatting keeps the JSON literal (the handler never
renders numbers on inputs any claim speaks about). -/
def jsToString : JsVal → String
  | .undef => "undefined"
  | .null => "null"
  | .bool true => "true"
  | .bool false => "false"
  | .num lit => lit
  | .str s => s
  | .arr xs => joinElems xs
  | .obj _ => "[object Object]"

def joinElems : List JsVal → String
  | [] => ""
  | x :: xs =>
      (match x with
       | .undef => ""
       | .null => ""
       | v => jsToString v) ++ (if xs.isEmpty then "" else ",") ++ joinElems xs

end

/-! ### The handler -/

/-- The values bound by the destructuring statement in the handler. -/
structure Extracted where
  eventName : JsVal
  userId : JsVal
  orderId : JsVal
  identifier : JsVal

/--
```
const { meta: { event_name: eventName, custom_data: { userId } },
        data: { id: orderId, attributes: { identifier } } } = payload
```
evaluated left to right, throwing a TypeError where JavaScript would. -/
def destructurePayload (payload : JsVal) : Except JsErr Extracted :=
  match getV payload "meta" with
  | .error e => .error e
  | .ok meta =>
  match getV meta "event_name" with
  | .error e => .error e
  | .ok eventName =>
  match getV meta "custom_data" with
  | .error e => .error e
  | .ok cd =>
  match getV cd "userId" with
  | .error e => .error e
  | .ok userId =>
  match getV payload "data" with
  | .error e => .error e
  | .ok dataV =>
  match getV dataV "id" with
  | .error e => .error e
  | .ok orderId =>
  match getV dataV "attributes" with
  | .error e => .error e
  | .ok attrs =>
  match getV attrs "identifier" with
  | .error e => .error e
  | .ok identifier => .ok ⟨eventName, userId, orderId, identifier⟩

/-- `eventName === "literal"`: strict equality against a string literal. -/
def strictEqStr (v : JsVal) (s : String) : Bool :=
  match v with
  | .str t => t == s
  | _ => false

/-- The response body shapes the handler produces. -/
inductive RespBody where
  | msg (m : String)
  | received
deriving DecidableEq

/-- An HTTP response, or an exception rethrown out of the handler. -/
inductive Response where
  | resp (status : Nat) (body : RespBody)
  | uncaught (e : JsErr)
deriving DecidableEq

/-- The event-name dispatch chain (lines 72-92): `none` means no early return
(the created / refunded / empty-string branches are comment-only), `some r`
is the unknown-event 400 early return. -/
def dispatch (ex : Extracted) : Option Response :=
  if strictEqStr ex.eventName "order_created" then none
  else if strictEqStr ex.eventName "order_refunded" then none
  else if strictEqStr ex.eventName "" then none
  else some (.resp 400 (.msg ("Unknown event name: " ++ jsToString ex.eventName ++
    " for order: " ++ jsToString ex.identifier ++ " (" ++ jsToString ex.orderId ++ ")")))

/-- The message of the TypeError thrown by `Buffer.from(undefined, "utf8")`
when the x-signature header is absent. -/
def bufferUndefinedMsg : String :=
  "The first argument must be of type string or an instance of Buffer, ArrayBuffer, or Array or an Array-like Object. Received undefined"

/-- `crypto.timingSafeEqual`: value-level behaviour only (the timing guarantee
is not representable here).  Throws a RangeError when the buffers differ in
byte length, otherwise compares contents. -/
def timingSafeEqual (a b : List Nat) : Except JsErr Bool :=
  if a.length = b.length then .ok (a == b)
  else .error (.error "RangeError" "Input buffers must have the same byte length")

/-- An inbound request as the handler observes it: method, the x-signature
header if present, and the raw body (a UTF-8 string, exactly what
`(await buffer(req)).toString("utf-8")` yields). -/
structure Request where
  method : String
  xSignature : Option String
  rawBody : String

/-- The body of the `try` block (lines 46-92).  First component: `.ok (some r)`
is an early `return r`, `.ok none` means the block fell through to the final
`res.send`, `.error e` means an exception escaped to `catch`.  Second
component records whether control reached `JSON.parse(rawBody)`. -/
def runTry (signingSecret : String) (req : Request) :
    Except JsErr (Option Response) × Bool :=
  let rawBody := req.rawBody
  let digest := utf8Bytes (hmacSha256Hex signingSecret rawBody)
  match req.xSignature with
  | none => (.error (.error "TypeError" bufferUndefinedMsg), false)
  | some sigStr =>
    let signature := utf8Bytes sigStr
    match timingSafeEqual digest signature with
    | .error e => (.error e, false)
    | .ok same =>
      if !same then
        (.ok (some (.resp 400 (.msg "Invalid signature."))), false)
      else
        match jsonParse rawBody with
        | .error e => (.error e, true)
        | .ok payload =>
          match destructurePayload payload with
          | .error e => (.error e, true)
          | .ok ex => (.ok (dispatch ex), true)

/-- The `catch` block (lines 93-105): a thrown string or an `Error` becomes a
400 with its message after "Webhook error: "; anything else is rethrown. -/
def catchClause : JsErr → Response
  | .str s => .resp 400 (.msg ("Webhook error: " ++ s))
  | .error _ m => .resp 400 (.msg ("Webhook error: " ++ m))
  | .other => .uncaught .other

/-- True when the handler ran `JSON.parse` on the raw body for this request. -/
def parseAttempted (signingSecret : String) (req : Request) : Bool :=
  (runTry signingSecret req).2

/-- The exported request handler.  `envSecret` is
`process.env.LEMON_SQUEEZY_WEBHOOK_SECRET` (absent configuration falls back to
the empty string via `|| ""`).  `res.send` with no status set responds 200. -/
def handler (envSecret : Option String) (req : Request) : Response :=
  let signingSecret := envSecret.getD ""
  if req.method ≠ "POST" then
    .resp 405 (.msg "Method not allowed")
  else
    match (runTry signingSecret req).1 with
    | .ok (some r) => r
    | .ok none => .resp 200 .received
    | .error e => catchClause e

/-- Well-formed payload in the sense of the `ResBody` interface restricted to
the fields the handler destructures: all four destructured leaves are strings
(which in particular forces each parent object to exist). -/
def isStr : JsVal → Bool
  | .str _ => true
  | _ => false

def wellFormedBody (v : JsVal) : Bool :=
  isStr (jsGetD (jsGetD v "meta") "event_name") &&
  isStr (jsGetD (jsGetD (jsGetD v "meta") "custom_data") "userId") &&
  isStr (jsGetD (jsGetD v "data") "id") &&
  isStr (jsGetD (jsGetD (jsGetD v "data") "attributes") "identifier")


/-- True when the handler rethrew an exception instead of answering. -/
def crashes : Response → Bool
  | .uncaught _ => true
  | _ => false

/-! ### Concrete request bodies used as witnesses (braces written as \x7b/\x7d) -/

/-- The concrete scenario of the spec, with event name order_created. -/
def orderCreatedBody : String :=
  "\x7b\"meta\":\x7b\"event_name\":\"order_created\",\"custom_data\":\x7b\"userId\":\"u1\"\x7d\x7d,\"data\":\x7b\"id\":\"o1\",\"attributes\":\x7b\"identifier\":\"ORD-1\"\x7d\x7d\x7d"

/-- The JsVal that `jsonParse orderCreatedBody` produces. -/
def orderCreatedVal : JsVal :=
  .obj [("meta", .obj [("event_name", .str "order_created"),
                       ("custom_data", .obj [("userId", .str "u1")])]),
        ("data", .obj [("id", .str "o1"),
                       ("attributes", .obj [("identifier", .str "ORD-1")])])]

/-- Same body shape with the recognized-but-unhandled event subscription_created. -/
def subscriptionBody : String :=
  "\x7b\"meta\":\x7b\"event_name\":\"subscription_created\",\"custom_data\":\x7b\"userId\":\"u1\"\x7d\x7d,\"data\":\x7b\"id\":\"o1\",\"attributes\":\x7b\"identifier\":\"ORD-1\"\x7d\x7d\x7d"

/-- Same body shape with the empty-string event name. -/
def emptyEventBody : String :=
  "\x7b\"meta\":\x7b\"event_name\":\"\",\"custom_data\":\x7b\"userId\":\"u1\"\x7d\x7d,\"data\":\x7b\"id\":\"o1\",\"attributes\":\x7b\"identifier\":\"ORD-1\"\x7d\x7d\x7d"

/-- A valid JSON body whose meta object lacks custom_data. -/
def missingCustomDataBody : String :=
  "\x7b\"meta\":\x7b\"event_name\":\"order_created\"\x7d\x7d"

/-- The JsVal that `jsonParse missingCustomDataBody` produces. -/
def missingCustomDataVal : JsVal :=
  .obj [("meta", .obj [("event_name", .str "order_created")])]

end LS

namespace LS

/-! ### Digest shape lemmas: length, byte range, ASCII hex -/

lemma compressRound_length (st : List Nat) (kw : Nat × Nat) :
    (compressRound st kw).length = st.length := by
  unfold compressRound
  split <;> simp

lemma foldl_compressRound_length (l : List (Nat × Nat)) (st : List Nat) :
    (l.foldl compressRound st).length = st.length := by
  induction l generalizing st with
  | nil => rfl
  | cons p t ih => rw [List.foldl_cons, ih, compressRound_length]

lemma compressBlock_length (hs block : List Nat) :
    (compressBlock hs block).length = hs.length := by
  unfold compressBlock
  rw [List.length_map, List.length_zip, foldl_compressRound_length, Nat.min_self]

lemma foldl_compressBlock_length (bs : List (List Nat)) (hs : List Nat) :
    (bs.foldl compressBlock hs).length = hs.length := by
  induction bs generalizing hs with
  | nil => rfl
  | cons b t ih => rw [List.foldl_cons, ih, compressBlock_length]

lemma flatMap_be32_length (l : List Nat) : (l.flatMap be32).length = 4 * l.length := by
  induction l with
  | nil => rfl
  | cons w t ih =>
      rw [List.flatMap_cons, List.length_append, ih]
      simp [be32]
      omega

lemma sha256_length (m : List Nat) : (sha256 m).length = 32 := by
  unfold sha256
  rw [flatMap_be32_length, foldl_compressBlock_length]
  rfl

lemma hmacSha256_length (key msg : List Nat) : (hmacSha256 key msg).length = 32 := by
  unfold hmacSha256
  exact sha256_length _

lemma hexChar_toNat_lt (n : Nat) : (hexChar n).toNat < 128 := by
  unfold hexChar
  split <;> decide

lemma upperHexChar_toNat_lt (n : Nat) : (upperHexChar n).toNat < 128 := by
  unfold upperHexChar
  split <;> decide

lemma byteHex_ascii (b : Nat) : ∀ c ∈ byteHex b, c.toNat < 128 := by
  intro c hc
  simp [byteHex] at hc
  rcases hc with h | h <;> subst h <;> exact hexChar_toNat_lt _

lemma byteHexUpper_ascii (b : Nat) : ∀ c ∈ byteHexUpper b, c.toNat < 128 := by
  intro c hc
  simp [byteHexUpper] at hc
  rcases hc with h | h <;> subst h <;> exact upperHexChar_toNat_lt _

lemma flatMap_byteHex_length (bs : List Nat) : (bs.flatMap byteHex).length = 2 * bs.length := by
  induction bs with
  | nil => rfl
  | cons b t ih =>
      rw [List.flatMap_cons, List.length_append, ih]
      simp [byteHex]
      omega

lemma flatMap_byteHexUpper_length (bs : List Nat) :
    (bs.flatMap byteHexUpper).length = 2 * bs.length := by
  induction bs with
  | nil => rfl
  | cons b t ih =>
      rw [List.flatMap_cons, List.length_append, ih]
      simp [byteHexUpper]
      omega

lemma bytesToHex_data (bs : List Nat) : (bytesToHex bs).data = bs.flatMap byteHex := rfl

lemma bytesToHexUpper_data (bs : List Nat) :
    (bytesToHexUpper bs).data = bs.flatMap byteHexUpper := rfl

lemma bytesToHex_ascii (bs : List Nat) : ∀ c ∈ (bytesToHex bs).data, c.toNat < 128 := by
  intro c hc
  rw [bytesToHex_data] at hc
  rcases List.mem_flatMap.mp hc with ⟨b, _, hb⟩
  exact byteHex_ascii b c hb

lemma bytesToHexUpper_ascii (bs : List Nat) :
    ∀ c ∈ (bytesToHexUpper bs).data, c.toNat < 128 := by
  intro c hc
  rw [bytesToHexUpper_data] at hc
  rcases List.mem_flatMap.mp hc with ⟨b, _, hb⟩
  exact byteHexUpper_ascii b c hb

/-! ### UTF-8 facts: ASCII strings encode one byte per char, injectively -/

lemma utf8EncodeChar_ascii (c : Char) (h : c.toNat < 128) : utf8EncodeChar c = [c.toNat] := by
  simp [utf8EncodeChar, h]

lemma utf8EncodeChar_ne_nil (c : Char) : utf8EncodeChar c ≠ [] := by
  simp only [utf8EncodeChar]
  split_ifs <;> simp

lemma utf8EncodeChar_head_large (c : Char) (h : 128 ≤ c.toNat) :
    ∃ b t, utf8EncodeChar c = b :: t ∧ 192 ≤ b := by
  simp only [utf8EncodeChar]
  split_ifs with h1 h2 h3
  · omega
  · exact ⟨_, _, rfl, by omega⟩
  · exact ⟨_, _, rfl, by omega⟩
  · exact ⟨_, _, rfl, by omega⟩

lemma utf8List_ascii_map (l : List Char) (h : ∀ c ∈ l, c.toNat < 128) :
    utf8List l = l.map Char.toNat := by
  induction l with
  | nil => rfl
  | cons c t ih =>
      rw [utf8List, utf8EncodeChar_ascii c (h c (by simp)),
          ih (fun d hd => h d (by simp [hd]))]
      rfl

lemma utf8List_inj_of_ascii (l t : List Char) (ht : ∀ c ∈ t, c.toNat < 128)
    (h : utf8List l = utf8List t) : l = t := by
  induction l generalizing t with
  | nil =>
      cases t with
      | nil => rfl
      | cons d t2 =>
          exfalso
          simp only [utf8List] at h
          exact utf8EncodeChar_ne_nil d (List.append_eq_nil.mp h.symm).1
  | cons c l2 ih =>
      cases t with
      | nil =>
          exfalso
          simp only [utf8List] at h
          exact utf8EncodeChar_ne_nil c (List.append_eq_nil.mp h).1
      | cons d t2 =>
          have hd : d.toNat < 128 := ht d (by simp)
          simp only [utf8List, utf8EncodeChar_ascii d hd] at h
          by_cases hc : c.toNat < 128
          · simp only [utf8EncodeChar_ascii c hc, List.cons_append, List.nil_append,
              List.cons.injEq] at h
            obtain ⟨h1, h2⟩ := h
            have hcd : c = d := by
              have h3 := congrArg Char.ofNat h1
              rwa [Char.ofNat_toNat, Char.ofNat_toNat] at h3
            subst hcd
            rw [ih t2 (fun x hx => ht x (by simp [hx])) h2]
          · obtain ⟨b, tb, he, hb⟩ := utf8EncodeChar_head_large c (by omega)
            rw [he] at h
            simp only [List.cons_append, List.nil_append, List.cons.injEq] at h
            obtain ⟨h1, _⟩ := h
            omega

lemma utf8Bytes_inj_of_ascii (s t : String) (ht : ∀ c ∈ t.data, c.toNat < 128)
    (h : utf8Bytes s = utf8Bytes t) : s = t := by
  have h2 := utf8List_inj_of_ascii s.data t.data ht h
  cases s
  cases t
  exact congrArg String.mk h2

lemma utf8Bytes_ascii_length (s : String) (h : ∀ c ∈ s.data, c.toNat < 128) :
    (utf8Bytes s).length = s.data.length := by
  unfold utf8Bytes
  rw [utf8List_ascii_map s.data h, List.length_map]

lemma hmacSha256Hex_ascii (s b : String) :
    ∀ c ∈ (hmacSha256Hex s b).data, c.toNat < 128 := bytesToHex_ascii _

lemma hmacSha256Hex_data_length (s b : String) : (hmacSha256Hex s b).data.length = 64 := by
  unfold hmacSha256Hex
  rw [bytesToHex_data, flatMap_byteHex_length, hmacSha256_length]

lemma digestBytes_length (s b : String) : (utf8Bytes (hmacSha256Hex s b)).length = 64 := by
  rw [utf8Bytes_ascii_length _ (hmacSha256Hex_ascii s b), hmacSha256Hex_data_length]

lemma upperDigest_utf8_length (s b : String) :
    (utf8Bytes (bytesToHexUpper (hmacSha256 (utf8Bytes s) (utf8Bytes b)))).length = 64 := by
  rw [utf8Bytes_ascii_length _ (bytesToHexUpper_ascii _), bytesToHexUpper_data,
      flatMap_byteHexUpper_length, hmacSha256_length]

end LS

namespace LS

/-! ### Handler path lemmas -/

lemma tse_eq_len (a b : List Nat) (h : a.length = b.length) :
    timingSafeEqual a b = .ok (a == b) := by
  unfold timingSafeEqual
  rw [if_pos h]

lemma tse_ne_len (a b : List Nat) (h : a.length ≠ b.length) :
    timingSafeEqual a b =
      .error (.error "RangeError" "Input buffers must have the same byte length") := by
  unfold timingSafeEqual
  rw [if_neg h]

lemma tse_error_val (a b : List Nat) (e : JsErr) (h : timingSafeEqual a b = .error e) :
    e = .error "RangeError" "Input buffers must have the same byte length" := by
  unfold timingSafeEqual at h
  split at h
  · exact Except.noConfusion h
  · injection h with h2
    exact h2.symm

lemma runTry_none_sig (secret : String) (req : Request) (hx : req.xSignature = none) :
    runTry secret req = (.error (.error "TypeError" bufferUndefinedMsg), false) := by
  simp only [runTry, hx]

lemma runTry_tse_error (secret m B X : String) (e : JsErr)
    (hts : timingSafeEqual (utf8Bytes (hmacSha256Hex secret B)) (utf8Bytes X) = .error e) :
    runTry secret ⟨m, some X, B⟩ = (.error e, false) := by
  simp only [runTry, hts]

lemma runTry_tse_false (secret m B X : String)
    (hts : timingSafeEqual (utf8Bytes (hmacSha256Hex secret B)) (utf8Bytes X) = .ok false) :
    runTry secret ⟨m, some X, B⟩ =
      (.ok (some (.resp 400 (.msg "Invalid signature."))), false) := by
  simp only [runTry, hts, Bool.not_false, if_true]

lemma runTry_parse_error (secret m B X : String) (e : JsErr)
    (hts : timingSafeEqual (utf8Bytes (hmacSha256Hex secret B)) (utf8Bytes X) = .ok true)
    (hp : jsonParse B = .error e) :
    runTry secret ⟨m, some X, B⟩ = (.error e, true) := by
  simp only [runTry, hts, hp, Bool.not_true, Bool.false_eq_true, if_false]

lemma runTry_destruct_error (secret m B X : String) (payload : JsVal) (e : JsErr)
    (hts : timingSafeEqual (utf8Bytes (hmacSha256Hex secret B)) (utf8Bytes X) = .ok true)
    (hp : jsonParse B = .ok payload)
    (hd : destructurePayload payload = .error e) :
    runTry secret ⟨m, some X, B⟩ = (.error e, true) := by
  simp only [runTry, hts, hp, hd, Bool.not_true, Bool.false_eq_true, if_false]

lemma runTry_dispatch (secret m B X : String) (payload : JsVal) (ex : Extracted)
    (hts : timingSafeEqual (utf8Bytes (hmacSha256Hex secret B)) (utf8Bytes X) = .ok true)
    (hp : jsonParse B = .ok payload)
    (hd : destructurePayload payload = .ok ex) :
    runTry secret ⟨m, some X, B⟩ = (.ok (dispatch ex), true) := by
  simp only [runTry, hts, hp, hd, Bool.not_true, Bool.false_eq_true, if_false]

lemma handler_some_post (secret : String) (req : Request) (hm : req.method = "POST") :
    handler (some secret) req =
      (match (runTry secret req).1 with
       | .ok (some r) => r
       | .ok none => .resp 200 .received
       | .error e => catchClause e) := by
  simp only [handler, Option.getD_some, hm, ne_eq, not_true_eq_false, if_false]

lemma jsonParse_error_val (s : String) (e : JsErr) (h : jsonParse s = .error e) :
    e = jsonSyntaxError := by
  unfold jsonParse at h
  cases hpv : parseValue (2 * s.data.length + 2) s.data with
  | none =>
      rw [hpv] at h
      injection h with h2
      exact h2.symm
  | some p =>
      obtain ⟨v, rest⟩ := p
      rw [hpv] at h
      have h3 : (if skipWs rest = [] then (Except.ok v : Except JsErr JsVal)
          else Except.error jsonSyntaxError) = Except.error e := h
      split at h3
      · exact Except.noConfusion h3
      · injection h3 with h2
        exact h2.symm

/-! ### Property access and destructuring lemmas -/

lemma getV_cases (w : JsVal) (k : String) :
    getV w k = .ok (jsGetD w k) ∨ ∃ m, getV w k = .error (.error "TypeError" m) := by
  cases w with
  | undef => exact Or.inr ⟨_, rfl⟩
  | null => exact Or.inr ⟨_, rfl⟩
  | bool b => exact Or.inl rfl
  | num lit => exact Or.inl rfl
  | str s => exact Or.inl rfl
  | arr xs => exact Or.inl rfl
  | obj fs => exact Or.inl rfl

lemma getV_ok_nonNullish (w : JsVal) (k : String) (u : JsVal) (h : getV w k = .ok u) :
    nullish w = false := by
  cases w with
  | undef => exact Except.noConfusion h
  | null => exact Except.noConfusion h
  | bool b => rfl
  | num lit => rfl
  | str s => rfl
  | arr xs => rfl
  | obj fs => rfl

lemma getV_not_nullish (w : JsVal) (k : String) (h : nullish w = false) :
    getV w k = .ok (jsGetD w k) := by
  cases w with
  | undef => exact Bool.noConfusion h
  | null => exact Bool.noConfusion h
  | bool b => rfl
  | num lit => rfl
  | str s => rfl
  | arr xs => rfl
  | obj fs => rfl

lemma jsGetD_nullish (w : JsVal) (k : String) (h : nullish w = true) : jsGetD w k = .undef := by
  cases w with
  | undef => rfl
  | null => rfl
  | bool b => exact Bool.noConfusion h
  | num lit => exact Bool.noConfusion h
  | str s => exact Bool.noConfusion h
  | arr xs => exact Bool.noConfusion h
  | obj fs => exact Bool.noConfusion h

lemma isStr_getD_not_nullish (w : JsVal) (k : String) (h : isStr (jsGetD w k) = true) :
    nullish w = false := by
  cases hn : nullish w
  · rfl
  · rw [jsGetD_nullish w k hn] at h
    exact Bool.noConfusion h

lemma isStr_getD2_not_nullish (w : JsVal) (k k2 : String)
    (h : isStr (jsGetD (jsGetD w k) k2) = true) : nullish w = false := by
  cases hn : nullish w
  · rfl
  · rw [jsGetD_nullish w k hn, jsGetD_nullish .undef k2 rfl] at h
    exact Bool.noConfusion h

lemma isStr_getD_ok (w : JsVal) (k k2 : String)
    (h : isStr (jsGetD (jsGetD w k) k2) = true) : getV w k = .ok (jsGetD w k) :=
  getV_not_nullish w k (isStr_getD2_not_nullish w k k2 h)

lemma isStr_getD_ok2 (w : JsVal) (k : String)
    (h : isStr (jsGetD w k) = true) : getV w k = .ok (jsGetD w k) :=
  getV_not_nullish w k (isStr_getD_not_nullish w k h)

lemma destructure_cases (v : JsVal) :
    (∃ ex, destructurePayload v = .ok ex) ∨
    (∃ m, destructurePayload v = .error (.error "TypeError" m)) := by
  unfold destructurePayload
  rcases getV_cases v "meta" with h1 | ⟨m1, h1⟩
  · simp only [h1]
    rcases getV_cases (jsGetD v "meta") "event_name" with h2 | ⟨m2, h2⟩
    · simp only [h2]
      rcases getV_cases (jsGetD v "meta") "custom_data" with h3 | ⟨m3, h3⟩
      · simp only [h3]
        rcases getV_cases (jsGetD (jsGetD v "meta") "custom_data") "userId" with h4 | ⟨m4, h4⟩
        · simp only [h4]
          rcases getV_cases v "data" with h5 | ⟨m5, h5⟩
          · simp only [h5]
            rcases getV_cases (jsGetD v "data") "id" with h6 | ⟨m6, h6⟩
            · simp only [h6]
              rcases getV_cases (jsGetD v "data") "attributes" with h7 | ⟨m7, h7⟩
              · simp only [h7]
                rcases getV_cases (jsGetD (jsGetD v "data") "attributes") "identifier"
                  with h8 | ⟨m8, h8⟩
                · simp only [h8]
                  exact Or.inl ⟨_, rfl⟩
                · simp only [h8]
                  exact Or.inr ⟨m8, rfl⟩
              · simp only [h7]
                exact Or.inr ⟨m7, rfl⟩
            · simp only [h6]
              exact Or.inr ⟨m6, rfl⟩
          · simp only [h5]
            exact Or.inr ⟨m5, rfl⟩
        · simp only [h4]
          exact Or.inr ⟨m4, rfl⟩
      · simp only [h3]
        exact Or.inr ⟨m3, rfl⟩
    · simp only [h2]
      exact Or.inr ⟨m2, rfl⟩
  · simp only [h1]
    exact Or.inr ⟨m1, rfl⟩

lemma destructure_ok_nonNullish (v : JsVal) (ex : Extracted)
    (h : destructurePayload v = .ok ex) :
    nullish (jsGetD (jsGetD v "meta") "custom_data") = false ∧
    nullish (jsGetD (jsGetD v "data") "attributes") = false := by
  unfold destructurePayload at h
  rcases getV_cases v "meta" with h1 | ⟨m1, h1⟩
  · simp only [h1] at h
    rcases getV_cases (jsGetD v "meta") "event_name" with h2 | ⟨m2, h2⟩
    · simp only [h2] at h
      rcases getV_cases (jsGetD v "meta") "custom_data" with h3 | ⟨m3, h3⟩
      · simp only [h3] at h
        rcases getV_cases (jsGetD (jsGetD v "meta") "custom_data") "userId" with h4 | ⟨m4, h4⟩
        · simp only [h4] at h
          rcases getV_cases v "data" with h5 | ⟨m5, h5⟩
          · simp only [h5] at h
            rcases getV_cases (jsGetD v "data") "id" with h6 | ⟨m6, h6⟩
            · simp only [h6] at h
              rcases getV_cases (jsGetD v "data") "attributes" with h7 | ⟨m7, h7⟩
              · simp only [h7] at h
                rcases getV_cases (jsGetD (jsGetD v "data") "attributes") "identifier"
                  with h8 | ⟨m8, h8⟩
                · exact ⟨getV_ok_nonNullish _ "userId" _ h4,
                    getV_ok_nonNullish _ "identifier" _ h8⟩
                · simp only [h8] at h
                  exact Except.noConfusion h
              · simp only [h7] at h
                exact Except.noConfusion h
            · simp only [h6] at h
              exact Except.noConfusion h
          · simp only [h5] at h
            exact Except.noConfusion h
        · simp only [h4] at h
          exact Except.noConfusion h
      · simp only [h3] at h
        exact Except.noConfusion h
    · simp only [h2] at h
      exact Except.noConfusion h
  · simp only [h1] at h
    exact Except.noConfusion h

lemma destructure_of_wellFormed (v : JsVal) (hw : wellFormedBody v = true) :
    destructurePayload v =
      .ok ⟨jsGetD (jsGetD v "meta") "event_name",
           jsGetD (jsGetD (jsGetD v "meta") "custom_data") "userId",
           jsGetD (jsGetD v "data") "id",
           jsGetD (jsGetD (jsGetD v "data") "attributes") "identifier"⟩ := by
  simp only [wellFormedBody, Bool.and_eq_true] at hw
  obtain ⟨⟨⟨h1, h2⟩, h3⟩, h4⟩ := hw
  have g1 := isStr_getD_ok v "meta" "event_name" h1
  have g2 := isStr_getD_ok2 (jsGetD v "meta") "event_name" h1
  have g3 := isStr_getD_ok (jsGetD v "meta") "custom_data" "userId" h2
  have g4 := isStr_getD_ok2 (jsGetD (jsGetD v "meta") "custom_data") "userId" h2
  have g5 := isStr_getD_ok v "data" "id" h3
  have g6 := isStr_getD_ok2 (jsGetD v "data") "id" h3
  have g7 := isStr_getD_ok (jsGetD v "data") "attributes" "identifier" h4
  have g8 := isStr_getD_ok2 (jsGetD (jsGetD v "data") "attributes") "identifier" h4
  simp only [destructurePayload, g1, g2, g3, g4, g5, g6, g7, g8]

/-! ### Error-shape and response-shape facts for the whole try block -/

lemma runTry_err_shape (secret : String) (req : Request) (e : JsErr)
    (h : (runTry secret req).1 = .error e) : e ≠ .other := by
  obtain ⟨m, xs, B⟩ := req
  cases xs with
  | none =>
      rw [runTry_none_sig secret _ rfl] at h
      injection h with h2
      rw [← h2]
      simp
  | some X =>
      cases hts : timingSafeEqual (utf8Bytes (hmacSha256Hex secret B)) (utf8Bytes X) with
      | error e2 =>
          rw [runTry_tse_error secret m B X e2 hts] at h
          injection h with h2
          rw [← h2, tse_error_val _ _ _ hts]
          simp
      | ok same =>
          cases same with
          | false =>
              rw [runTry_tse_false secret m B X hts] at h
              exact Except.noConfusion h
          | true =>
              cases hp : jsonParse B with
              | error e3 =>
                  rw [runTry_parse_error secret m B X e3 hts hp] at h
                  injection h with h2
                  rw [← h2, jsonParse_error_val B e3 hp]
                  simp [jsonSyntaxError]
              | ok payload =>
                  rcases destructure_cases payload with ⟨ex, hd⟩ | ⟨m2, hd⟩
                  · rw [runTry_dispatch secret m B X payload ex hts hp hd] at h
                    exact Except.noConfusion h
                  · rw [runTry_destruct_error secret m B X payload _ hts hp hd] at h
                    injection h with h2
                    rw [← h2]
                    simp

lemma dispatch_shape (ex : Extracted) (r : Response) (h : dispatch ex = some r) :
    ∃ m, r = .resp 400 (.msg m) := by
  unfold dispatch at h
  split_ifs at h
  all_goals first
    | exact Option.noConfusion h
    | exact ⟨_, (Option.some.inj h).symm⟩

lemma runTry_ok_shape (secret : String) (req : Request) (r : Response)
    (h : (runTry secret req).1 = .ok (some r)) : ∃ n msg, r = .resp n (.msg msg) := by
  obtain ⟨m, xs, B⟩ := req
  cases xs with
  | none =>
      rw [runTry_none_sig secret _ rfl] at h
      exact Except.noConfusion h
  | some X =>
      cases hts : timingSafeEqual (utf8Bytes (hmacSha256Hex secret B)) (utf8Bytes X) with
      | error e2 =>
          rw [runTry_tse_error secret m B X e2 hts] at h
          exact Except.noConfusion h
      | ok same =>
          cases same with
          | false =>
              rw [runTry_tse_false secret m B X hts] at h
              injection h with h2
              exact ⟨400, "Invalid signature.", (Option.some.inj h2).symm⟩
          | true =>
              cases hp : jsonParse B with
              | error e3 =>
                  rw [runTry_parse_error secret m B X e3 hts hp] at h
                  exact Except.noConfusion h
              | ok payload =>
                  rcases destructure_cases payload with ⟨ex, hd⟩ | ⟨m2, hd⟩
                  · rw [runTry_dispatch secret m B X payload ex hts hp hd] at h
                    injection h with h2
                    obtain ⟨m3, hm3⟩ := dispatch_shape ex r h2
                    exact ⟨400, m3, hm3⟩
                  · rw [runTry_destruct_error secret m B X payload _ hts hp hd] at h
                    exact Except.noConfusion h

end LS

namespace LS

/-! ### Verification-gate lemmas shared by several claims -/

lemma tse_ok_true (a b : List Nat) (h : timingSafeEqual a b = .ok true) : a = b := by
  unfold timingSafeEqual at h
  by_cases hl : a.length = b.length
  · rw [if_pos hl] at h
    injection h with h2
    exact eq_of_beq h2
  · rw [if_neg hl] at h
    exact Except.noConfusion h

lemma parseAttempted_iff (m secret B X : String) :
    parseAttempted secret ⟨m, some X, B⟩ = true ↔
      utf8Bytes X = utf8Bytes (hmacSha256Hex secret B) := by
  constructor
  · intro h
    cases hts : timingSafeEqual (utf8Bytes (hmacSha256Hex secret B)) (utf8Bytes X) with
    | error e =>
        rw [parseAttempted, runTry_tse_error secret m B X e hts] at h
        exact Bool.noConfusion h
    | ok same =>
        cases same with
        | false =>
            rw [parseAttempted, runTry_tse_false secret m B X hts] at h
            exact Bool.noConfusion h
        | true =>
            exact (tse_ok_true _ _ hts).symm
  · intro hEq
    have hts : timingSafeEqual (utf8Bytes (hmacSha256Hex secret B)) (utf8Bytes X) =
        .ok true := by
      rw [tse_eq_len _ _ (by rw [hEq]), hEq]
      simp
    cases hp : jsonParse B with
    | error e =>
        rw [parseAttempted, runTry_parse_error secret m B X e hts hp]
    | ok payload =>
        rcases destructure_cases payload with ⟨ex, hd⟩ | ⟨m2, hd⟩
        · rw [parseAttempted, runTry_dispatch secret m B X payload ex hts hp hd]
        · rw [parseAttempted, runTry_destruct_error secret m B X payload _ hts hp hd]

lemma handler_same_length_mismatch (secret B X : String)
    (hlen : (utf8Bytes X).length = 64)
    (hne : utf8Bytes X ≠ utf8Bytes (hmacSha256Hex secret B)) :
    handler (some secret) ⟨"POST", some X, B⟩ = .resp 400 (.msg "Invalid signature.") ∧
    parseAttempted secret ⟨"POST", some X, B⟩ = false := by
  have hbeq : (utf8Bytes (hmacSha256Hex secret B) == utf8Bytes X) = false :=
    beq_eq_false_iff_ne.mpr fun hEq => hne hEq.symm
  have hts : timingSafeEqual (utf8Bytes (hmacSha256Hex secret B)) (utf8Bytes X) =
      .ok false := by
    rw [tse_eq_len _ _ ((digestBytes_length secret B).trans hlen.symm), hbeq]
  have h1 := runTry_tse_false secret "POST" B X hts
  constructor
  · rw [handler_some_post secret _ rfl, h1]
  · rw [parseAttempted, h1]

lemma handler_length_mismatch (secret B X : String)
    (hlen : (utf8Bytes X).length ≠ 64) :
    handler (some secret) ⟨"POST", some X, B⟩ =
      .resp 400 (.msg "Webhook error: Input buffers must have the same byte length") ∧
    parseAttempted secret ⟨"POST", some X, B⟩ = false := by
  have hts := tse_ne_len (utf8Bytes (hmacSha256Hex secret B)) (utf8Bytes X)
    (by rw [digestBytes_length]; exact fun hEq => hlen hEq.symm)
  have h1 := runTry_tse_error secret "POST" B X _ hts
  constructor
  · rw [handler_some_post secret _ rfl, h1]
    rfl
  · rw [parseAttempted, h1]

/-! ### The claims -/

/-- Claim C1 (corrected).  The original claim says every supplied x-signature
X that differs from the hex HMAC digest is answered with
400 { message: "Invalid signature." } regardless of the length of X, with a
length mismatch degrading to that same rejection rather than raising.  In the
code, `crypto.timingSafeEqual` raises a RangeError when the byte lengths
differ, the outer catch converts it to
400 { message: "Webhook error: Input buffers must have the same byte length" },
so only a 64-byte X is answered with the signature-invalid body.  In both
cases the request is rejected and the body is never parsed. -/
theorem C1_signature_mismatch (secret B X : String) (hne : X ≠ hmacSha256Hex secret B) :
    ((utf8Bytes X).length = 64 →
      handler (some secret) ⟨"POST", some X, B⟩ = .resp 400 (.msg "Invalid signature.")) ∧
    ((utf8Bytes X).length ≠ 64 →
      handler (some secret) ⟨"POST", some X, B⟩ =
        .resp 400 (.msg "Webhook error: Input buffers must have the same byte length")) ∧
    parseAttempted secret ⟨"POST", some X, B⟩ = false := by
  have hbne : utf8Bytes X ≠ utf8Bytes (hmacSha256Hex secret B) := fun hEq =>
    hne (utf8Bytes_inj_of_ascii X _ (hmacSha256Hex_ascii secret B) hEq)
  refine ⟨fun hlen => (handler_same_length_mismatch secret B X hlen hbne).1,
          fun hlen => (handler_length_mismatch secret B X hlen).1, ?_⟩
  by_cases hlen : (utf8Bytes X).length = 64
  · exact (handler_same_length_mismatch secret B X hlen hbne).2
  · exact (handler_length_mismatch secret B X hlen).2

/-- Claim C1 counterexample.  The two-byte signature "ff" differs from the
digest, yet the response body is the caught RangeError message, not
"Invalid signature." as the claim requires for every length. -/
theorem C1_counterexample :
    handler (some "k") ⟨"POST", some "ff", "b"⟩ =
      .resp 400 (.msg "Webhook error: Input buffers must have the same byte length") ∧
    handler (some "k") ⟨"POST", some "ff", "b"⟩ ≠ .resp 400 (.msg "Invalid signature.") := by
  decide

/-- Claim C1 witness: a concrete 64-byte wrong signature is answered with the
signature-invalid body, and a concrete 2-byte one with the RangeError body. -/
theorem C1_signature_mismatch_witness :
    handler (some "k") ⟨"POST", some (String.mk (List.replicate 64 'a')), "b"⟩ =
      .resp 400 (.msg "Invalid signature.") ∧
    handler (some "k") ⟨"POST", some "ff", "b"⟩ =
      .resp 400 (.msg "Webhook error: Input buffers must have the same byte length") :=
  ⟨(C1_signature_mismatch "k" "b" (String.mk (List.replicate 64 'a')) (by decide)).1
      (by decide),
   (C1_signature_mismatch "k" "b" "ff" (by decide)).2.1 (by decide)⟩

/-- Claim C2 (corrected).  The original claim says a POST with an absent
x-signature header is answered 400 { message: "Invalid signature." } and never
crashes.  In the code, `Buffer.from(undefined, "utf8")` raises a TypeError and
the catch answers 400 with "Webhook error: " followed by the TypeError
message, not "Invalid signature.".  The never-crashes half is right: every
exception the try block can raise is an Error instance, so the catch never
re-raises. -/
theorem C2_missing_signature (env : Option String) (req : Request)
    (hm : req.method = "POST") :
    (req.xSignature = none →
      handler env req = .resp 400 (.msg ("Webhook error: " ++ bufferUndefinedMsg))) ∧
    crashes (handler env req) = false := by
  have hpost : handler env req =
      (match (runTry (env.getD "") req).1 with
       | .ok (some r) => r
       | .ok none => .resp 200 .received
       | .error e => catchClause e) := by
    simp only [handler, hm, ne_eq, not_true_eq_false, if_false]
  constructor
  · intro hx
    rw [hpost, runTry_none_sig _ _ hx]
    rfl
  · rw [hpost]
    cases hr : (runTry (env.getD "") req).1 with
    | error e =>
        have hshape := runTry_err_shape _ _ _ hr
        cases e with
        | str s => rfl
        | error n m2 => rfl
        | other => exact absurd rfl hshape
    | ok o =>
        cases o with
        | none => rfl
        | some r =>
            obtain ⟨n, msg2, hmsg⟩ := runTry_ok_shape _ _ _ hr
            rw [hmsg]
            rfl

/-- Claim C2 counterexample.  A POST with no x-signature header is answered
with the caught TypeError message, not with "Invalid signature." as claimed. -/
theorem C2_missing_signature_counterexample :
    handler (some "k") ⟨"POST", none, "b"⟩ =
      .resp 400 (.msg ("Webhook error: " ++ bufferUndefinedMsg)) ∧
    handler (some "k") ⟨"POST", none, "b"⟩ ≠ .resp 400 (.msg "Invalid signature.") := by
  decide

/-- Claim C2 witness at a concrete header-less POST request. -/
theorem C2_missing_signature_witness :
    handler (some "k") ⟨"POST", none, "b"⟩ =
      .resp 400 (.msg ("Webhook error: " ++ bufferUndefinedMsg)) ∧
    crashes (handler (some "k") ⟨"POST", none, "b"⟩) = false :=
  ⟨(C2_missing_signature (some "k") ⟨"POST", none, "b"⟩ rfl).1 rfl,
   (C2_missing_signature (some "k") ⟨"POST", none, "b"⟩ rfl).2⟩

/-- Claim C3 (confirmed).  `JSON.parse` runs only when a signature header was
supplied whose bytes equal the hex HMAC-SHA256 digest computed over the raw
request body; contrapositively, on any verification failure the body is never
parsed, and the digest compared is by construction the one over
`req.rawBody`. -/
theorem C3_parse_only_after_verification (secret : String) (req : Request)
    (h : parseAttempted secret req = true) :
    ∃ sigStr, req.xSignature = some sigStr ∧
      utf8Bytes sigStr = utf8Bytes (hmacSha256Hex secret req.rawBody) := by
  obtain ⟨m, xs, B⟩ := req
  cases xs with
  | none =>
      rw [parseAttempted, runTry_none_sig secret _ rfl] at h
      exact Bool.noConfusion h
  | some X =>
      exact ⟨X, rfl, (parseAttempted_iff m secret B X).mp h⟩

/-- Claim C3 witness at a concrete verified request. -/
theorem C3_parse_only_after_verification_witness :
    ∃ sigStr, (some (hmacSha256Hex "k" "b") : Option String) = some sigStr ∧
      utf8Bytes sigStr = utf8Bytes (hmacSha256Hex "k" "b") :=
  C3_parse_only_after_verification "k" ⟨"POST", some (hmacSha256Hex "k" "b"), "b"⟩ (by decide)

/-- Claim C4 (code bug).  The claim — and the comment block in the source —
say subscription_created is recognized-but-unhandled, so the request should
reach the no-op branch and be answered 200.  The branch guard however compares
the event name against the empty string, so subscription_created falls to the
unknown-event arm: evaluating the handler on a validly signed
subscription_created payload yields the 400 unknown-event response. -/
theorem C4_subscription_event_rejected :
    handler (some "abc123")
      ⟨"POST", some (hmacSha256Hex "abc123" subscriptionBody), subscriptionBody⟩ =
      .resp 400 (.msg "Unknown event name: subscription_created for order: ORD-1 (o1)") := by
  decide

/-- Claim C5 (confirmed).  Supplying the hex HMAC-SHA256 of the body under the
configured secret as x-signature passes verification: control always reaches
`JSON.parse`. -/
theorem C5_correct_signature_accepted (secret B : String) :
    parseAttempted secret ⟨"POST", some (hmacSha256Hex secret B), B⟩ = true :=
  (parseAttempted_iff "POST" secret B _).mpr rfl

/-- Claim C6 (confirmed).  A validly signed POST whose body parses to a
well-formed payload with event name order_created is answered
200 { received: true }. -/
theorem C6_order_created_success (secret B : String) (v : JsVal)
    (hp : jsonParse B = .ok v) (hw : wellFormedBody v = true)
    (he : strictEqStr (jsGetD (jsGetD v "meta") "event_name") "order_created" = true) :
    handler (some secret) ⟨"POST", some (hmacSha256Hex secret B), B⟩ =
      .resp 200 .received := by
  have hts : timingSafeEqual (utf8Bytes (hmacSha256Hex secret B))
      (utf8Bytes (hmacSha256Hex secret B)) = .ok true := by
    rw [tse_eq_len _ _ rfl]
    simp
  have hd := destructure_of_wellFormed v hw
  have hdisp : dispatch ⟨jsGetD (jsGetD v "meta") "event_name",
      jsGetD (jsGetD (jsGetD v "meta") "custom_data") "userId",
      jsGetD (jsGetD v "data") "id",
      jsGetD (jsGetD (jsGetD v "data") "attributes") "identifier"⟩ = none := by
    simp [dispatch, he]
  rw [handler_some_post secret _ rfl,
      runTry_dispatch secret "POST" B (hmacSha256Hex secret B) v _ hts hp hd, hdisp]

/-- Claim C6 witness: the concrete scenario of the spec (secret "abc123" and
the order_created body) is answered 200 { received: true }. -/
theorem C6_order_created_success_witness :
    handler (some "abc123")
      ⟨"POST", some (hmacSha256Hex "abc123" orderCreatedBody), orderCreatedBody⟩ =
      .resp 200 .received :=
  C6_order_created_success "abc123" orderCreatedBody orderCreatedVal rfl
    (by decide) (by decide)

/-- Claim C7 (code bug).  The claim says a well-formed, validly signed body
whose event name lies outside the recognized set is answered 400 with the
unknown-event message.  The empty string is no provider event, yet the dead
placeholder branch `eventName === ""` swallows it and the handler answers
200 { received: true } instead. -/
theorem C7_empty_event_name_accepted :
    handler (some "abc123")
      ⟨"POST", some (hmacSha256Hex "abc123" emptyEventBody), emptyEventBody⟩ =
      .resp 200 .received := by
  decide

/-- Claim C8 (confirmed).  A validly signed POST whose body is not parseable
JSON is answered 400 with a message starting "Webhook error: "; and the catch
block echoes thrown strings and Error messages behind that prefix while
re-raising any other exception shape. -/
theorem C8_unparsable_body_webhook_error (secret B : String) (e : JsErr)
    (hp : jsonParse B = .error e) :
    (∃ detail, handler (some secret) ⟨"POST", some (hmacSha256Hex secret B), B⟩ =
        .resp 400 (.msg ("Webhook error: " ++ detail))) ∧
    (∀ s, catchClause (.str s) = .resp 400 (.msg ("Webhook error: " ++ s))) ∧
    (∀ n msg2, catchClause (.error n msg2) = .resp 400 (.msg ("Webhook error: " ++ msg2))) ∧
    catchClause .other = .uncaught .other := by
  refine ⟨?_, fun s => rfl, fun n msg2 => rfl, rfl⟩
  have hts : timingSafeEqual (utf8Bytes (hmacSha256Hex secret B))
      (utf8Bytes (hmacSha256Hex secret B)) = .ok true := by
    rw [tse_eq_len _ _ rfl]
    simp
  refine ⟨"Unexpected token in JSON", ?_⟩
  rw [handler_some_post secret _ rfl,
      runTry_parse_error secret "POST" B _ e hts hp,
      jsonParse_error_val B e hp]
  rfl

/-- Claim C8 witness at a concrete unparsable body. -/
theorem C8_unparsable_body_webhook_error_witness :
    ∃ detail, handler (some "k") ⟨"POST", some (hmacSha256Hex "k" "nope"), "nope"⟩ =
      .resp 400 (.msg ("Webhook error: " ++ detail)) :=
  (C8_unparsable_body_webhook_error "k" "nope" jsonSyntaxError rfl).1

/-- Claim C9 (confirmed).  Verification accepts a supplied x-signature exactly
when its bytes equal those of the lowercase hex digest string; consequently
the uppercase hex encoding of the same MAC, whenever it differs from the
lowercase form at all (which fails only if no digest nibble exceeds 9), is
rejected with 400 { message: "Invalid signature." }. -/
theorem C9_uppercase_hex_rejected (secret B : String) :
    (∀ X, parseAttempted secret ⟨"POST", some X, B⟩ = true ↔
        utf8Bytes X = utf8Bytes (hmacSha256Hex secret B)) ∧
    (bytesToHexUpper (hmacSha256 (utf8Bytes secret) (utf8Bytes B)) ≠ hmacSha256Hex secret B →
      handler (some secret)
          ⟨"POST", some (bytesToHexUpper (hmacSha256 (utf8Bytes secret) (utf8Bytes B))), B⟩ =
        .resp 400 (.msg "Invalid signature.")) := by
  refine ⟨fun X => parseAttempted_iff "POST" secret B X, fun hne => ?_⟩
  have hbne : utf8Bytes (bytesToHexUpper (hmacSha256 (utf8Bytes secret) (utf8Bytes B))) ≠
      utf8Bytes (hmacSha256Hex secret B) := fun hEq =>
    hne (utf8Bytes_inj_of_ascii _ _ (hmacSha256Hex_ascii secret B) hEq)
  exact (handler_same_length_mismatch secret B _ (upperDigest_utf8_length secret B) hbne).1

/-- Claim C9 witness: for secret "abc123" and body "x" the uppercase digest
differs from the lowercase one and is rejected. -/
theorem C9_uppercase_hex_rejected_witness :
    handler (some "abc123")
        ⟨"POST", some (bytesToHexUpper (hmacSha256 (utf8Bytes "abc123") (utf8Bytes "x"))), "x"⟩ =
      .resp 400 (.msg "Invalid signature.") :=
  (C9_uppercase_hex_rejected "abc123" "x").2 (by decide)

/-- Claim C10 (confirmed).  A validly signed POST whose body is valid JSON but
whose meta.custom_data or data.attributes is missing (or null) is answered 400
with a message starting "Webhook error: ": the destructuring throws a
TypeError before dispatch and the outer catch converts it. -/
theorem C10_missing_nested_field_webhook_error (secret B : String) (v : JsVal)
    (hp : jsonParse B = .ok v)
    (hn : (nullish (jsGetD (jsGetD v "meta") "custom_data") ||
           nullish (jsGetD (jsGetD v "data") "attributes")) = true) :
    ∃ detail, handler (some secret) ⟨"POST", some (hmacSha256Hex secret B), B⟩ =
      .resp 400 (.msg ("Webhook error: " ++ detail)) := by
  have hts : timingSafeEqual (utf8Bytes (hmacSha256Hex secret B))
      (utf8Bytes (hmacSha256Hex secret B)) = .ok true := by
    rw [tse_eq_len _ _ rfl]
    simp
  rcases destructure_cases v with ⟨ex, hd⟩ | ⟨m2, hd⟩
  · exfalso
    obtain ⟨hc, ha⟩ := destructure_ok_nonNullish v ex hd
    rw [hc, ha] at hn
    exact Bool.noConfusion hn
  · refine ⟨m2, ?_⟩
    rw [handler_some_post secret _ rfl,
        runTry_destruct_error secret "POST" B _ v _ hts hp hd]
    rfl

/-- Claim C10 witness: an order_created body without custom_data is answered
400 with the Webhook-error prefix. -/
theorem C10_missing_nested_field_webhook_error_witness :
    ∃ detail, handler (some "k")
        ⟨"POST", some (hmacSha256Hex "k" missingCustomDataBody), missingCustomDataBody⟩ =
      .resp 400 (.msg ("Webhook error: " ++ detail)) :=
  C10_missing_nested_field_webhook_error "k" missingCustomDataBody missingCustomDataVal
    rfl (by decide)

end LS
